import Mathlib

/-!
Verification of the vibration feature-extraction engine of the ZhongcheCup
repository (`src/Backend/signal.py`).

Modelling conventions:
* Python floats are modelled by `ℚ`.  A scalar that may be NaN/±Inf is
  modelled by the two-constructor type `Fl`; no claim distinguishes the
  different non-finite kinds, so they are collapsed into `Fl.nonfinite`.
  Python `None` arguments are modelled by an outer `Option`.
* Library calls whose numerical content lies outside the repository
  (`np.std`'s square root, `np.log10`, `np.fft.rfft` magnitudes,
  `scipy.signal.get_window`, `scipy.signal.detrend`, the Butterworth
  filter `sosfiltfilt`) are uninterpreted parameters collected in `NumEnv`;
  everything the repository itself computes (means, variances, medians,
  interpolation, clamping, bin scaling, argmax, thresholds) is defined
  concretely.
* `raise ValueError/TypeError` sites become `Except SigError`, using the
  error taxonomy of the specification.
-/

/-- A Python float: either a finite value (as `ℚ`) or a non-finite one
(NaN/±Inf, collapsed — no modelled code path distinguishes them). -/
inductive Fl where
  | finite (q : ℚ)
  | nonfinite
deriving DecidableEq

namespace Fl

/-- Models `np.isfinite`. -/
def isFinite : Fl → Bool
  | .finite _ => true
  | .nonfinite => false

/-- Extract the rational value; junk (0) on non-finite inputs, which the
modelled code never reads (finiteness is always checked first). -/
def toQ : Fl → ℚ
  | .finite q => q
  | .nonfinite => 0

end Fl

/-- Error taxonomy of the specification (§7); each `raise` site of
`signal.py` maps to one constructor. -/
inductive SigError where
  | invalidRate        -- fs non-positive (`_validate_fs`)
  | allInvalid         -- all samples non-finite (`_sanitize_signal`)
  | shapeMismatch      -- length mismatch
  | nonMonotonicTime   -- duplicate timestamps after sorting
  | degenerateTimeBase -- median dt <= 0
  | invalidBand        -- band edges None/non-finite or low >= high after clamp
  | invalidWindow      -- unrecognised window name
  | invalidSearchBand  -- malformed fmin/fmax search bounds
deriving DecidableEq

/-- Uninterpreted numerical-library primitives used by `signal.py`.
Only their call-structure matters to the claims; each analysed function is
quantified over an arbitrary environment. -/
structure NumEnv where
  /-- square root used by `np.std` and the RMS (`np.sqrt`). -/
  sqrt : ℚ → ℚ
  /-- `np.log10` (only feeds the `snr_db` diagnostic). -/
  log10 : ℚ → ℚ
  /-- `|np.fft.rfft(xw, nfft)[k]|`: input list, transform length, bin. -/
  rfftAbs : List ℚ → ℕ → ℕ → ℚ
  /-- `scipy.signal.get_window(window, N)`; `none` = unrecognised name. -/
  getWindow : String → ℕ → Option (List ℚ)
  /-- `scipy.signal.detrend(x, type="linear")`. -/
  detrendLinear : List ℚ → List ℚ
  /-- `sosfiltfilt(butter(order, [low, high], fs), x)`:
  order, low, high, fs, signal. -/
  filtfilt : ℕ → ℚ → ℚ → ℤ → List ℚ → List ℚ

/-- Models `np.mean` (mean of an empty list degenerates to 0 via `ℚ` division;
no modelled path reads the mean of an empty list). -/
def listMean (l : List ℚ) : ℚ := l.sum / l.length

/-- Population variance, so that `np.std l = sqrt (npVar l)`. -/
def npVar (l : List ℚ) : ℚ := listMean (l.map (fun a => (a - listMean l) ^ 2))

/-- Insert into a sorted list (ascending), keeping equal elements stable. -/
def insertAsc (a : ℚ) : List ℚ → List ℚ
  | [] => [a]
  | b :: rest => if a < b then a :: b :: rest else b :: insertAsc a rest

/-- Ascending insertion sort (models `np.sort`). -/
def sortAsc : List ℚ → List ℚ
  | [] => []
  | a :: rest => insertAsc a (sortAsc rest)

/-- Models `np.median`: middle element of the sorted list, or the average of the
two middle elements for even length. -/
def npMedian (l : List ℚ) : ℚ :=
  let s := sortAsc l
  if l.length % 2 = 1 then s.getD (l.length / 2) 0
  else (s.getD (l.length / 2 - 1) 0 + s.getD (l.length / 2) 0) / 2

/-- Models `np.interp` on a list of `(x, y)` anchor points with strictly
increasing `x`: clamp to the end values outside the anchor range,
linear interpolation between consecutive anchors inside. -/
def interpPts (x : ℚ) : List (ℚ × ℚ) → ℚ
  | [] => 0
  | [(_, y0)] => y0
  | (x0, y0) :: (x1, y1) :: rest =>
      if x ≤ x0 then y0
      else if x ≤ x1 then y0 + (y1 - y0) * (x - x0) / (x1 - x0)
      else interpPts x ((x1, y1) :: rest)

/-- Models `np.diff`: successive differences. -/
def diffs : List ℚ → List ℚ
  | a :: b :: rest => (b - a) :: diffs (b :: rest)
  | _ => []

/-- Models `np.argmax`: index of the first occurrence of the maximum (0 on `[]`). -/
def argmaxIdx : List ℚ → ℕ
  | [] => 0
  | [_] => 0
  | a :: b :: rest =>
      let j := argmaxIdx (b :: rest)
      if a < (b :: rest).getD j 0 then j + 1 else 0

/-- Stable sort of `(t, x)` pairs by time key (models
`order = np.argsort(t); t[order], x[order]`; ties only ever reach the
duplicate-timestamp error, so stability is unobservable). -/
def insertByT (p : ℚ × ℚ) : List (ℚ × ℚ) → List (ℚ × ℚ)
  | [] => [p]
  | q :: rest => if p.1 < q.1 then p :: q :: rest else q :: insertByT p rest

def sortByT : List (ℚ × ℚ) → List (ℚ × ℚ)
  | [] => []
  | p :: rest => insertByT p (sortByT rest)

/-- Source `_validate_fs`: fs must be a positive integer (the `isinstance` check
is subsumed by the `ℤ` type). -/
def _validate_fs (fs : ℤ) : Except SigError ℤ :=
  if fs ≤ 0 then .error .invalidRate else .ok fs

/-- Index/value anchor pairs of the finite samples (`idx[mask], x[mask]`). -/
def finiteAnchors (x : List Fl) : List (ℚ × ℚ) :=
  x.enum.filterMap fun p =>
    match p.2 with
    | .finite q => some ((p.1 : ℚ), q)
    | .nonfinite => none

/-- The filler assignment `x_filled[~mask] = np.interp(idx[~mask],
idx[mask], x[mask])`: per index, keep finite samples and interpolate the
rest over the index axis. -/
def sanitizeFill (x : List Fl) : List ℚ :=
  (List.range x.length).map fun i =>
    match x.getD i .nonfinite with
    | .finite q => q
    | .nonfinite => interpPts (i : ℚ) (finiteAnchors x)

/-- Source `_sanitize_signal`: empty input is returned as-is; all-finite input is
returned as-is; all-non-finite input is an error; otherwise non-finite
samples are filled by linear interpolation over the index axis. -/
def _sanitize_signal (x : List Fl) : Except SigError (List ℚ) :=
  if x.length = 0 then .ok []
  else if x.all Fl.isFinite then .ok (x.map Fl.toQ)
  else if x.all fun v => !v.isFinite then .error .allInvalid
  else .ok (sanitizeFill x)

/-- Metadata of `_check_and_resample_if_needed` (`meta` dict). The source
key `jitter_ratio` is the field `jitter` here. -/
structure ResampleMeta where
  resampled : Bool
  jitter : Option ℚ
  tStart : Option ℚ
  tEnd : Option ℚ
  fsUsed : ℤ
deriving DecidableEq

/-- The jitter ratio `std(dt) / dt_median` of a delta list, 0 when fewer
than two deltas exist (`float(np.std(dt) / dt_median) if dt.size > 1
else 0.0`). -/
def jitterOfD (env : NumEnv) (dt : List ℚ) : ℚ :=
  if 1 < dt.length then env.sqrt (npVar dt) / npMedian dt else 0

/-- Source `_check_and_resample_if_needed`.  Notes kept from the source:
* empty `t` or `x` returns early, before the length check;
* non-monotonic timestamps are sorted jointly; duplicates after sorting
  are an error;
* `np.median` of an empty delta list is NaN and `NaN <= 0` is false, so
  the `dt_median <= 0` check can only fire for a non-empty delta list;
* if the jitter ratio is within tolerance the (possibly sorted) arrays
  are returned unchanged, otherwise they are linearly resampled onto a
  uniform grid unless the target length is below 8. -/
def _check_and_resample_if_needed (env : NumEnv) (time_stamps x : List ℚ)
    (fs : ℤ) (jitterTol : ℚ := 2/100) :
    Except SigError (List ℚ × List ℚ × ResampleMeta) := do
  let t := time_stamps
  let fsv ← _validate_fs fs
  let meta0 : ResampleMeta :=
    ⟨false, none, none, none, fsv⟩
  if t.length = 0 ∨ x.length = 0 then return (t, x, meta0)
  if t.length ≠ x.length then throw .shapeMismatch
  let (t1, x1) ←
    if (diffs t).any (fun d => d ≤ 0) then
      let ps := sortByT (t.zip x)
      let ts := ps.map Prod.fst
      if (diffs ts).any (fun d => d ≤ 0) then throw SigError.nonMonotonicTime
      else pure (ts, ps.map Prod.snd)
    else pure (t, x)
  let dt := diffs t1
  if dt.length ≠ 0 ∧ npMedian dt ≤ 0 then throw .degenerateTimeBase
  let j := jitterOfD env dt
  let meta : ResampleMeta :=
    ⟨false, some j, some (t1.getD 0 0), some (t1.getD (t1.length - 1) 0), fsv⟩
  if j ≤ jitterTol then return (t1, x1, meta)
  let t0 := t1.getD 0 0
  let tLast := t1.getD (t1.length - 1) 0
  let nTarget := (((tLast - t0) * (fsv : ℚ)).floor + 1).toNat
  if nTarget < 8 then return (t1, x1, meta)
  let tUniform := (List.range nTarget).map fun n => t0 + (n : ℚ) / (fsv : ℚ)
  let xUniform := tUniform.map fun q => interpPts q (t1.zip x1)
  return (tUniform, xUniform, { meta with resampled := true })

/-- Metadata of `_clamp_band`. -/
structure BandMeta where
  bandInput : ℚ × ℚ
  bandUsed : Option (ℚ × ℚ)
  nyquist : ℚ
deriving DecidableEq

/-- Source `_clamp_band`: floor the low edge at `eps = 1e-6`, cap the high edge
at `Nyquist × margin`, and reject `low >= high` after clamping.  The
Python `None` check and the finiteness check both map to
`SigError.invalidBand` (spec taxonomy `InvalidBandError`). -/
def _clamp_band (low_cut high_cut : Option Fl) (fs : ℤ)
    (margin : ℚ := 95/100) : Except SigError (ℚ × ℚ × BandMeta) := do
  let fsv ← _validate_fs fs
  let nyq : ℚ := 1/2 * (fsv : ℚ)
  let lowF ← match low_cut with
    | none => throw SigError.invalidBand
    | some v => pure v
  let highF ← match high_cut with
    | none => throw SigError.invalidBand
    | some v => pure v
  if !lowF.isFinite || !highF.isFinite then throw .invalidBand
  let low0 := lowF.toQ
  let high0 := highF.toQ
  let meta0 : BandMeta := ⟨(low0, high0), none, nyq⟩
  let eps : ℚ := 1/1000000
  let low := max low0 eps
  let high := min high0 (nyq * margin)
  if low ≥ high then throw .invalidBand
  return (low, high, { meta0 with bandUsed := some (low, high) })

/-- Metadata of `filter_signal` (either the `empty_signal` note or the
filter parameters merged with the band metadata). -/
structure FilterMeta where
  note : Option String := none
  filterName : Option String := none
  order : ℕ := 0
  detrend : Bool := true
  band : Option BandMeta := none
deriving DecidableEq

/-- Source `filter_signal`: sanitize, empty early-return, optional linear detrend
(size >= 3), mean removal, band clamp, Butterworth design + zero-phase
filtering (the latter two are the uninterpreted `env.filtfilt`). -/
def filter_signal (env : NumEnv) (d_t_mm : List Fl) (fs : ℤ)
    (low_cut high_cut : Option Fl) (order : ℕ := 4) (detrend : Bool := true) :
    Except SigError (List ℚ × FilterMeta) := do
  let fsv ← _validate_fs fs
  let x0 ← _sanitize_signal d_t_mm
  if x0.length = 0 then return (x0, { note := some "empty_signal" })
  let x1 := if detrend ∧ 3 ≤ x0.length then env.detrendLinear x0 else x0
  let x2 := x1.map fun a => a - listMean x1
  let (low, high, bandMeta) ← _clamp_band low_cut high_cut fs
  let xFilt := env.filtfilt order low high fsv x2
  return (xFilt, { note := none,
                   filterName := some "butterworth_bandpass_sosfiltfilt",
                   order := order, detrend := detrend,
                   band := some bandMeta })

/-- Source `calculate_time_domain_amp`: peak-to-peak (`max - min`) and RMS
(`sqrt(mean(x^2))`), both 0 on empty input. -/
def calculate_time_domain_amp (env : NumEnv) (d_t_mm_filtered : List ℚ) :
    ℚ × ℚ :=
  let x := d_t_mm_filtered
  if x.length = 0 then (0, 0)
  else
    let app := x.foldl max (x.getD 0 0) - x.foldl min (x.getD 0 0)
    let arms := env.sqrt (listMean (x.map fun a => a ^ 2))
    (app, arms)

/-- Length of `np.fft.rfft(_, n=nfft)` output: `nfft / 2 + 1`. -/
def rfftLen (nfft : ℕ) : ℕ := nfft / 2 + 1

/-- Coherent gain of a window: its mean, replaced by 1 when `<= 0`. -/
def coherentGainOf (w : List ℚ) : ℚ :=
  let cg := listMean w
  if cg ≤ 0 then 1 else cg

/-- Effective transform length: `nfft = int(zero_pad_to) if given else N;
if nfft < N: nfft = N` (a negative request also collapses to `N`). -/
def nfftOf (n : ℕ) (zero_pad_to : Option ℤ) : ℕ :=
  match zero_pad_to with
  | none => n
  | some z => max z.toNat n

/-- The amplitude-array construction of `calculate_fft_spectrum`: scale
every bin (`X_amp = 2/(N*cg) * |X_complex|`, here `g k`), then halve the
DC bin (`X_amp[0] /= 2` guarded by `size > 0`) and, for even `nfft`,
halve the Nyquist bin (`X_amp[-1] /= 2` guarded by `size > 1`). -/
def specAmpList (g : ℕ → ℚ) (nfft : ℕ) : List ℚ :=
  let amps0 := (List.range (rfftLen nfft)).map g
  let amps1 := if 0 < amps0.length then amps0.set 0 (amps0.getD 0 0 / 2)
               else amps0
  if nfft % 2 = 0 ∧ 1 < amps1.length then
    amps1.set (amps1.length - 1) (amps1.getD (amps1.length - 1) 0 / 2)
  else amps1

/-- Metadata of `calculate_fft_spectrum`. -/
structure SpecMeta where
  note : Option String := none
  windowName : Option String := none
  coherentGain : ℚ := 0
  n : ℕ := 0
  nfft : ℕ := 0
  fsOut : ℤ := 0
deriving DecidableEq

/-- Source `calculate_fft_spectrum`: sanitize, build the window (`None`/"none" is
a flat unity window, otherwise `scipy.signal.get_window`), coherent gain,
multiply, transform at length `nfft`, scale every bin by `2/(N*cg)`, then
halve the DC bin and — when `nfft` is even — the Nyquist (last) bin. -/
def calculate_fft_spectrum (env : NumEnv) (d_t_mm_filtered : List Fl)
    (fs : ℤ) (window : Option String := some "hann")
    (zero_pad_to : Option ℤ := none) :
    Except SigError (List ℚ × List ℚ × SpecMeta) := do
  let fsv ← _validate_fs fs
  let x ← _sanitize_signal d_t_mm_filtered
  let n := x.length
  if n = 0 then return ([], [], { note := some "empty_signal" })
  let (w, windowName) ←
    match window with
    | none => pure (List.replicate n (1 : ℚ), "none")
    | some name =>
        if name = "none" then pure (List.replicate n (1 : ℚ), "none")
        else match env.getWindow name n with
          | some w => pure (w, name)
          | none => throw SigError.invalidWindow
  let cg := coherentGainOf w
  let xw := x.zipWith (· * ·) w
  let nfft := nfftOf n zero_pad_to
  let amps2 := specAmpList
    (fun k => 2 / ((n : ℚ) * cg) * env.rfftAbs xw nfft k) nfft
  let freqs := (List.range (rfftLen nfft)).map fun k => (k : ℚ) * (fsv : ℚ) / (nfft : ℚ)
  return (freqs, amps2, { note := none, windowName := some windowName,
                          coherentGain := cg, n := n, nfft := nfft,
                          fsOut := fsv })

/-- Quality diagnostics of `find_dominant_frequency`.  Source dict keys:
`peak_amp`, `second_peak_amp`, `peak_ratio` (field `peakOverSecond`),
`snr_db`, `search_band`, plus the degenerate-path `note` keys. -/
structure DomQuality where
  note : Option String := none
  peakAmp : ℚ := 0
  secondPeakAmp : ℚ := 0
  peakOverSecond : ℚ := 0
  snrDb : ℚ := 0
  searchBand : Option (ℚ × ℚ) := none
deriving DecidableEq

/-- In-band `(frequency, amplitude)` pairs, in array order
(`band_mask = (freqs >= fmin) & (freqs <= fmax)`). -/
def bandPairs (freqs X_amp : List ℚ) (fmin fmax : ℚ) : List (ℚ × ℚ) :=
  (freqs.zip X_amp).filter fun p => fmin ≤ p.1 ∧ p.1 ≤ fmax

/-- Source `find_dominant_frequency`: empty spectrum early-returns 0 before any
validation; mismatched lengths are an error; non-finite, non-positive or
inverted search bounds are `invalidSearchBand`; an empty in-band mask
returns 0 with a note; otherwise the first maximal in-band amplitude wins
and the quality diagnostics are computed. -/
def find_dominant_frequency (env : NumEnv) (freqs X_amp : List ℚ)
    (fmin fmax : Fl) : Except SigError (ℚ × DomQuality) := do
  if freqs.length = 0 ∨ X_amp.length = 0 then
    return (0, { note := some "empty_spectrum" })
  if freqs.length ≠ X_amp.length then throw .shapeMismatch
  if !fmin.isFinite || !fmax.isFinite then throw .invalidSearchBand
  let fm := fmin.toQ
  let fM := fmax.toQ
  if fm ≤ 0 then throw .invalidSearchBand
  if fm ≥ fM then throw .invalidSearchBand
  let pairs := bandPairs freqs X_amp fm fM
  if pairs.length = 0 then
    return (0, { note := some "no_bins_in_search_band",
                 searchBand := some (fm, fM) })
  let fBand := pairs.map Prod.fst
  let xBand := pairs.map Prod.snd
  let idxLocal := argmaxIdx xBand
  let fPeak := fBand.getD idxLocal 0
  let peakAmp := xBand.getD idxLocal 0
  let xSorted := sortAsc xBand
  let second := if 2 ≤ xSorted.length then xSorted.getD (xSorted.length - 2) 0
                else 0
  let peakOverSecond := peakAmp / (second + 1/1000000000000)
  let noiseFloor := npMedian xBand
  let snrDb := 20 * env.log10 ((peakAmp + 1/1000000000000) / (noiseFloor + 1/1000000000000))
  return (fPeak, { note := none, peakAmp := peakAmp,
                   secondPeakAmp := second, peakOverSecond := peakOverSecond,
                   snrDb := snrDb, searchBand := some (fm, fM) })

/-- Input record `DisplacementSeries`. -/
structure DisplacementSeries where
  time_stamps : List ℚ
  d_t_mm : List Fl
  fs : ℤ
  fan_id : String
deriving DecidableEq

/-- Consolidated `preprocess_meta` (the source merges the stage dicts;
modelled as one field per stage plus the raw/used sample counts). -/
structure PreprocessMeta where
  resample : ResampleMeta
  filter : FilterMeta
  spec : SpecMeta
  nRaw : ℕ
  nUsed : ℕ
deriving DecidableEq

/-- Output record `AnalysisResult`. -/
structure AnalysisResult where
  A_pp_mm : ℚ
  A_rms_mm : ℚ
  f_dominant_hz : ℚ
  f_spectrum : List ℚ
  X_spectrum : List ℚ
  is_abnormal : Bool
  fan_id : String
  quality : DomQuality
  preprocess_meta : PreprocessMeta
deriving DecidableEq

/-- The abnormality flags of step 5 of `analyze_displacement_series`:
one strict `>` comparison per supplied limit; `any` of an empty flag list
is `false`. -/
def abnormalFlag (app arms : ℚ) (A_pp_limit A_rms_limit : Option ℚ) : Bool :=
  let flags :=
    (match A_pp_limit with
     | some l => [decide (app > l)]
     | none => []) ++
    (match A_rms_limit with
     | some l => [decide (arms > l)]
     | none => [])
  flags.any id

/-- Source `analyze_displacement_series`: the pipeline orchestrator. -/
def analyze_displacement_series (env : NumEnv)
    (disp_series : DisplacementSeries)
    (low_cut high_cut : Option Fl)
    (A_pp_limit A_rms_limit : Option ℚ := none)
    (window : Option String := some "hann")
    (zero_pad_to : Option ℤ := none)
    (f_search_min f_search_max : Option Fl := none)
    (jitterTol : ℚ := 2/100) : Except SigError AnalysisResult := do
  let _ ← _validate_fs disp_series.fs
  let tRaw := disp_series.time_stamps
  let xRaw ← _sanitize_signal disp_series.d_t_mm
  let (t, x, resampleMeta) ←
    _check_and_resample_if_needed env tRaw xRaw disp_series.fs jitterTol
  let (xFilt, filterMeta) ←
    filter_signal env (x.map Fl.finite) disp_series.fs low_cut high_cut 4 true
  let (app, arms) := calculate_time_domain_amp env xFilt
  let (freqs, xAmp, specMeta) ←
    calculate_fft_spectrum env (xFilt.map Fl.finite) disp_series.fs window
      zero_pad_to
  let (bandLow, bandHigh, _) ← _clamp_band low_cut high_cut disp_series.fs
  -- default: search inside the filter band, low edge floored at 1e-3;
  -- an invalid user band falls back to the clamped filter band
  let fallback : ℚ × ℚ := (max bandLow (1/1000), bandHigh)
  let fm0 : Fl := match f_search_min with
    | some v => v
    | none => .finite (max bandLow (1/1000))
  let fM0 : Fl := match f_search_max with
    | some v => v
    | none => .finite bandHigh
  let (fm, fM) : ℚ × ℚ :=
    match fm0, fM0 with
    | .finite a, .finite b => if a ≤ 0 ∨ a ≥ b then fallback else (a, b)
    | _, _ => fallback
  let (fDom, quality) ←
    find_dominant_frequency env freqs xAmp (.finite fm) (.finite fM)
  let isAbn := abnormalFlag app arms A_pp_limit A_rms_limit
  return { A_pp_mm := app, A_rms_mm := arms, f_dominant_hz := fDom,
           f_spectrum := freqs, X_spectrum := xAmp, is_abnormal := isAbn,
           fan_id := disp_series.fan_id, quality := quality,
           preprocess_meta := { resample := resampleMeta,
                                filter := filterMeta, spec := specMeta,
                                nRaw := tRaw.length, nUsed := t.length } }

/-- A concrete environment used by the closed witness/counterexample
statements.  Its uninterpreted fields agree with the real libraries at
every point where a witness actually evaluates them (`sqrt 0 = 0`, a flat
window of ones, identity detrend/filter on the empty or trivial signals
involved). -/
def env0 : NumEnv where
  sqrt := fun _ => 0
  log10 := fun _ => 0
  rfftAbs := fun _ _ _ => 1
  getWindow := fun _ n => some (List.replicate n 1)
  detrendLinear := fun x => x
  filtfilt := fun _ _ _ _ x => x

/-- Spec-side predicate (for C6): the dominant-frequency search bounds
are malformed — fmin or fmax non-finite, fmin not strictly positive, or
fmin >= fmax. -/
def bandMalformed : Fl → Fl → Bool
  | .finite a, .finite b => decide (a ≤ 0) || decide (a ≥ b)
  | _, _ => true

/-! ### Generic reduction lemmas for the `Except` pipeline -/

@[simp] lemma ebind_ok {α β : Type} (a : α) (f : α → Except SigError β) :
    (Except.ok a >>= f) = f a := rfl

@[simp] lemma ebind_err {α β : Type} (e : SigError) (f : α → Except SigError β) :
    ((Except.error e : Except SigError α) >>= f) = .error e := rfl

@[simp] lemma epure_eq_ok {α : Type} (a : α) :
    (pure a : Except SigError α) = .ok a := rfl

@[simp] lemma ethrow_eq_err {α : Type} (e : SigError) :
    (throw e : Except SigError α) = .error e := rfl

/-- Decidable equality on `Except`, for closed witness statements. -/
instance {ε α : Type} [DecidableEq ε] [DecidableEq α] :
    DecidableEq (Except ε α) := fun a b =>
  match a, b with
  | .error e, .error f =>
      if h : e = f then isTrue (by rw [h]) else isFalse (by simp [h])
  | .error _, .ok _ => isFalse (by simp)
  | .ok _, .error _ => isFalse (by simp)
  | .ok u, .ok v =>
      if h : u = v then isTrue (by rw [h]) else isFalse (by simp [h])

/-! ### C4 — band-clamp invariant -/

/-- C4: for every request on which `_clamp_band` returns without error,
the returned pair satisfies `0 < low < high ≤ 0.5 · fs · margin` (the low
edge having been floored at `eps = 1e-6 > 0` and the high edge capped at
`Nyquist × margin`). -/
theorem clamp_band_invariant (lo hi : Option Fl) (fs : ℤ) (margin : ℚ)
    (l h : ℚ) (m : BandMeta)
    (hok : _clamp_band lo hi fs margin = .ok (l, h, m)) :
    0 < l ∧ l < h ∧ h ≤ 1/2 * (fs : ℚ) * margin := by
  unfold _clamp_band _validate_fs at hok
  split at hok
  · simp at hok
  · simp only [ebind_ok, ethrow_eq_err] at hok
    rcases lo with _ | lowF
    · simp at hok
    rcases hi with _ | highF
    · simp at hok
    simp only [epure_eq_ok, ebind_ok] at hok
    split at hok
    · simp at hok
    · split at hok
      · simp at hok
      · rename_i hge
        simp only [Except.ok.injEq, Prod.mk.injEq] at hok
        obtain ⟨hl, hh, -⟩ := hok
        subst hl; subst hh
        exact ⟨lt_of_lt_of_le (by norm_num) (le_max_right _ _),
               not_le.mp hge, min_le_right _ _⟩

unseal Rat.add Rat.mul Rat.inv Rat.sub Rat.ofScientific in
/-- C4 witness: a concrete legal request `(1, 10)` at `fs = 100`,
`margin = 0.95`. -/
theorem clamp_band_invariant_witness :
    _clamp_band (some (.finite 1)) (some (.finite 10)) 100 (95/100) =
      .ok (1, 10, ⟨(1, 10), some (1, 10), 50⟩) ∧
    (0 < (1 : ℚ) ∧ (1 : ℚ) < 10 ∧ (10 : ℚ) ≤ 1/2 * ((100 : ℤ) : ℚ) * (95/100)) := by
  have h : _clamp_band (some (.finite 1)) (some (.finite 10)) 100 (95/100) =
      .ok (1, 10, ⟨(1, 10), some (1, 10), 50⟩) := by decide
  exact ⟨h, clamp_band_invariant (some (.finite 1)) (some (.finite 10)) 100
    (95/100) 1 10 ⟨(1, 10), some (1, 10), 50⟩ h⟩

/-! ### C5 — shape mismatch in the time-base validator -/

/-- C5 (amended: both arrays non-empty; an empty array short-circuits the
length check): arrays of different lengths fail with `shapeMismatch`. -/
theorem resample_shape_mismatch (env : NumEnv) (t x : List ℚ) (fs : ℤ)
    (tol : ℚ) (ht : t ≠ []) (hx : x ≠ []) (hlen : t.length ≠ x.length)
    (hfs : 0 < fs) :
    _check_and_resample_if_needed env t x fs tol = .error .shapeMismatch := by
  unfold _check_and_resample_if_needed _validate_fs
  rw [if_neg (not_le.mpr hfs)]
  simp only [ebind_ok]
  have h1 : ¬(t.length = 0 ∨ x.length = 0) := by
    simpa [List.length_eq_zero] using And.intro ht hx
  rw [if_neg h1, if_pos hlen]
  simp only [ebind_ok, ebind_err, epure_eq_ok, ethrow_eq_err]

/-- C5 witness at a concrete mismatched pair. -/
theorem resample_shape_mismatch_witness :
    _check_and_resample_if_needed env0 [0, 1] [1, 2, 3] 1 (2/100) =
      .error .shapeMismatch :=
  resample_shape_mismatch env0 [0, 1] [1, 2, 3] 1 (2/100)
    (by decide) (by decide) (by decide) (by decide)

/-- C5 counterexample to the claim as stated: `t = []` and `x = [1]` have
different lengths (0 vs 1) and the sampling rate is valid, yet the
function returns successfully (the empty-input early return precedes the
length check). -/
theorem resample_shape_mismatch_ce :
    _check_and_resample_if_needed env0 [] [1] 1 (2/100) =
      .ok ([], [1], ⟨false, none, none, none, 1⟩) ∧
    List.length ([] : List ℚ) ≠ [(1 : ℚ)].length := by
  constructor
  · decide
  · decide

/-! ### C3 — jitter within tolerance means no resampling -/

lemma diffs_pos {t : List ℚ} (h : t.Chain' (· < ·)) :
    ∀ d ∈ diffs t, 0 < d := by
  induction t with
  | nil => intro d hd; simp [diffs] at hd
  | cons a rest ih =>
    cases rest with
    | nil => intro d hd; simp [diffs] at hd
    | cons b r =>
      rw [List.chain'_cons] at h
      intro d hd
      simp only [diffs, List.mem_cons] at hd
      rcases hd with h1 | h2
      · subst h1; linarith [h.1]
      · exact ih h.2 d h2

lemma length_insertAsc (a : ℚ) (l : List ℚ) :
    (insertAsc a l).length = l.length + 1 := by
  induction l with
  | nil => rfl
  | cons b rest ih =>
    simp only [insertAsc]
    split <;> simp [ih]

lemma mem_of_mem_insertAsc {b a : ℚ} {l : List ℚ}
    (h : b ∈ insertAsc a l) : b = a ∨ b ∈ l := by
  induction l with
  | nil => simpa [insertAsc] using h
  | cons c rest ih =>
    simp only [insertAsc] at h
    split at h
    · simpa using h
    · rcases List.mem_cons.mp h with h1 | h2
      · exact Or.inr (h1 ▸ List.mem_cons_self _ _)
      · rcases ih h2 with h3 | h4
        · exact Or.inl h3
        · exact Or.inr (List.mem_cons_of_mem _ h4)

lemma length_sortAsc (l : List ℚ) : (sortAsc l).length = l.length := by
  induction l with
  | nil => rfl
  | cons a rest ih => simp [sortAsc, length_insertAsc, ih]

lemma mem_of_mem_sortAsc {b : ℚ} {l : List ℚ}
    (h : b ∈ sortAsc l) : b ∈ l := by
  induction l with
  | nil => simpa [sortAsc] using h
  | cons a rest ih =>
    simp only [sortAsc] at h
    rcases mem_of_mem_insertAsc h with h1 | h2
    · exact h1 ▸ List.mem_cons_self _ _
    · exact List.mem_cons_of_mem _ (ih h2)

lemma npMedian_pos {l : List ℚ} (hne : l ≠ []) (hpos : ∀ a ∈ l, 0 < a) :
    0 < npMedian l := by
  have hlen : (sortAsc l).length = l.length := length_sortAsc l
  have hmem : ∀ i, i < (sortAsc l).length → 0 < (sortAsc l).getD i 0 := by
    intro i h
    rw [List.getD_eq_getElem _ _ h]
    exact hpos _ (mem_of_mem_sortAsc (List.getElem_mem _))
  have hl0 : 0 < l.length := List.length_pos.mpr hne
  simp only [npMedian]
  split
  · exact hmem _ (by omega)
  · have h1 := hmem (l.length / 2 - 1) (by omega)
    have h2 := hmem (l.length / 2) (by omega)
    have : (0 : ℚ) < (sortAsc l).getD (l.length / 2 - 1) 0 +
        (sortAsc l).getD (l.length / 2) 0 := by linarith
    exact div_pos this (by norm_num)

/-- C3 (amended: the time stamps must already be strictly increasing —
otherwise the validator first sorts the pair of arrays, and can then
return the sorted, not the original, arrays even when the jitter ratio is
within tolerance): when the jitter ratio (std of the successive deltas
over their median, 0 when fewer than two deltas exist) is at most the
tolerance, the input arrays are returned unchanged and the metadata
records that no resampling occurred. -/
theorem resample_identity_when_low_jitter (env : NumEnv) (t x : List ℚ)
    (fs : ℤ) (tol : ℚ) (hlen : t.length = x.length) (ht : t ≠ [])
    (hfs : 0 < fs) (hinc : t.Chain' (· < ·))
    (hjit : jitterOfD env (diffs t) ≤ tol) :
    _check_and_resample_if_needed env t x fs tol =
      .ok (t, x, ⟨false, some (jitterOfD env (diffs t)), some (t.getD 0 0),
                  some (t.getD (t.length - 1) 0), fs⟩) := by
  have hx : x ≠ [] := by
    intro h; subst h; simp only [List.length_nil, List.length_eq_zero] at hlen
    exact ht hlen
  have hdposmem := diffs_pos hinc
  have hany : ((diffs t).any fun d => decide (d ≤ 0)) = false := by
    simp only [List.any_eq_false, decide_eq_true_eq]
    intro d hd
    exact not_le.mpr (hdposmem d hd)
  unfold _check_and_resample_if_needed _validate_fs
  rw [if_neg (not_le.mpr hfs)]
  simp only [ebind_ok]
  have h1 : ¬(t.length = 0 ∨ x.length = 0) := by
    simpa [List.length_eq_zero] using And.intro ht hx
  rw [if_neg h1, if_neg (by omega : ¬t.length ≠ x.length)]
  rw [if_neg (by simp [hany])]
  simp only [epure_eq_ok, ebind_ok]
  have h2 : ¬((diffs t).length ≠ 0 ∧ npMedian (diffs t) ≤ 0) := by
    rintro ⟨hne, hle⟩
    exact absurd hle (not_le.mpr
      (npMedian_pos (by simpa [List.length_eq_zero] using hne) hdposmem))
  simp [h2, hjit, epure_eq_ok, ebind_ok]
  intro hne
  exact npMedian_pos hne hdposmem

unseal Rat.add Rat.mul Rat.inv Rat.sub Rat.ofScientific in
/-- C3 witness: a strictly increasing grid `[0, 1, 2]` with constant
deltas (`std = sqrt 0 = 0`, so the jitter ratio is `0 ≤ 0.02`): the
arrays come back unchanged with `resampled = false`. -/
theorem resample_identity_when_low_jitter_witness :
    ∃ m : ResampleMeta,
      _check_and_resample_if_needed env0 [0, 1, 2] [1, 2, 3] 1 (2/100) =
        .ok ([0, 1, 2], [1, 2, 3], m) ∧ m.resampled = false :=
  ⟨_, resample_identity_when_low_jitter env0 [0, 1, 2] [1, 2, 3] 1 (2/100)
    (by decide) (by decide) (by decide)
    (by norm_num [List.chain'_cons, List.chain'_singleton]) (by decide), rfl⟩

unseal Rat.add Rat.mul Rat.inv Rat.sub Rat.ofScientific in
/-- C3 counterexample to the claim as stated: `t = [1, 0, 2]` is not
strictly increasing, so the validator sorts both arrays; the sorted grid
has constant deltas, hence jitter ratio `0 ≤ tolerance`, yet the values
returned (`[0, 1, 2]` / `[20, 10, 30]`) differ from the inputs
(`[1, 0, 2]` / `[10, 20, 30]`). -/
theorem resample_identity_when_low_jitter_ce :
    _check_and_resample_if_needed env0 [1, 0, 2] [10, 20, 30] 1 (2/100) =
      .ok ([0, 1, 2], [20, 10, 30], ⟨false, some 0, some 0, some 2, 1⟩) ∧
    ([0, 1, 2] : List ℚ) ≠ [1, 0, 2] ∧
    ([20, 10, 30] : List ℚ) ≠ [10, 20, 30] := by
  refine ⟨by decide, by decide, by decide⟩

/-! ### C7 — signal sanitizer -/

lemma getD_range_map {α : Type} (f : ℕ → α) (L i : ℕ) (d : α) (h : i < L) :
    ((List.range L).map f).getD i d = f i := by
  rw [List.getD_eq_getElem _ _ (by simpa using h), List.getElem_map,
    List.getElem_range]

/-- C7: a non-empty all-finite input passes through unchanged; a mixed
input keeps its length, keeps every finite sample unchanged at its index,
and (by construction in `ℚ`, mirroring that interpolation between finite
anchors is finite) every output sample is finite. -/
theorem sanitize_signal_spec (x : List Fl) (hne : x ≠ []) :
    ((∀ v ∈ x, v.isFinite = true) →
      _sanitize_signal x = .ok (x.map Fl.toQ) ∧
      x = (x.map Fl.toQ).map Fl.finite) ∧
    ((∃ v ∈ x, v.isFinite = true) → (∃ v ∈ x, v.isFinite = false) →
      ∃ ys, _sanitize_signal x = .ok ys ∧ ys.length = x.length ∧
        ∀ i, i < x.length → ∀ q, x.getD i .nonfinite = .finite q →
          ys.getD i 0 = q) := by
  constructor
  · intro hall
    have hlen0 : ¬x.length = 0 := by
      simpa [List.length_eq_zero] using hne
    have hallb : x.all Fl.isFinite = true := List.all_eq_true.mpr hall
    constructor
    · unfold _sanitize_signal
      rw [if_neg hlen0, if_pos hallb]
    · rw [List.map_map]
      have : ∀ v ∈ x, (Fl.finite ∘ Fl.toQ) v = v := by
        intro v hv
        cases v with
        | finite q => rfl
        | nonfinite => simpa [Fl.isFinite] using hall _ hv
      calc x = x.map id := by rw [List.map_id]
        _ = x.map (Fl.finite ∘ Fl.toQ) := List.map_congr_left
            (by intro v hv; rw [this v hv]; rfl)
  · intro hfin hnon
    have hlen0 : ¬x.length = 0 := by
      simpa [List.length_eq_zero] using hne
    have hb1 : ¬x.all Fl.isFinite = true := by
      obtain ⟨v, hv, hvf⟩ := hnon
      intro h
      have h2 := List.all_eq_true.mp h v hv
      rw [hvf] at h2
      simp at h2
    have hb2 : ¬(x.all fun v => !v.isFinite) = true := by
      obtain ⟨v, hv, hvf⟩ := hfin
      intro h
      have h2 := List.all_eq_true.mp h v hv
      rw [hvf] at h2
      simp at h2
    refine ⟨sanitizeFill x, ?_, ?_, ?_⟩
    · unfold _sanitize_signal
      rw [if_neg hlen0, if_neg hb1, if_neg hb2]
    · simp [sanitizeFill]
    · intro i hi q hq
      unfold sanitizeFill
      rw [getD_range_map _ _ _ _ hi, hq]

/-- C7 witness at the concrete mixed input `[1, NaN, 3]`. -/
theorem sanitize_signal_spec_witness :
    ([Fl.finite 1, Fl.nonfinite, Fl.finite 3] : List Fl) ≠ [] ∧
    (((∀ v ∈ ([Fl.finite 1, Fl.nonfinite, Fl.finite 3] : List Fl),
        v.isFinite = true) →
      _sanitize_signal [Fl.finite 1, Fl.nonfinite, Fl.finite 3] =
        .ok (([Fl.finite 1, Fl.nonfinite, Fl.finite 3] : List Fl).map Fl.toQ) ∧
      ([Fl.finite 1, Fl.nonfinite, Fl.finite 3] : List Fl) =
        (([Fl.finite 1, Fl.nonfinite, Fl.finite 3] : List Fl).map Fl.toQ).map
          Fl.finite) ∧
    ((∃ v ∈ ([Fl.finite 1, Fl.nonfinite, Fl.finite 3] : List Fl),
        v.isFinite = true) →
     (∃ v ∈ ([Fl.finite 1, Fl.nonfinite, Fl.finite 3] : List Fl),
        v.isFinite = false) →
      ∃ ys, _sanitize_signal [Fl.finite 1, Fl.nonfinite, Fl.finite 3] =
          .ok ys ∧
        ys.length = ([Fl.finite 1, Fl.nonfinite, Fl.finite 3] : List Fl).length ∧
        ∀ i, i < ([Fl.finite 1, Fl.nonfinite, Fl.finite 3] : List Fl).length →
          ∀ q, ([Fl.finite 1, Fl.nonfinite, Fl.finite 3] : List Fl).getD i
              .nonfinite = .finite q → ys.getD i 0 = q)) :=
  ⟨by decide, sanitize_signal_spec [Fl.finite 1, Fl.nonfinite, Fl.finite 3]
    (by decide)⟩

/-! ### C1 — spectrum bin scaling -/

lemma sanitize_map_finite (x : List ℚ) :
    _sanitize_signal (x.map Fl.finite) = .ok x := by
  unfold _sanitize_signal
  rcases eq_or_ne x [] with h | h
  · subst h; simp
  · rw [if_neg (by simpa [List.length_eq_zero] using h),
      if_pos (by simp [List.all_eq_true, Fl.isFinite])]
    simp [List.map_map, Function.comp, Fl.toQ]
    exact (List.map_id x).symm ▸ List.map_congr_left (fun a _ => rfl)

lemma getD_set_self (l : List ℚ) (i : ℕ) (d a : ℚ) (h : i < l.length) :
    (l.set i a).getD i d = a := by
  rw [List.getD_eq_getElem _ _ (by simpa using h)]
  exact List.getElem_set_self _

lemma getD_set_ne (l : List ℚ) (i j : ℕ) (d a : ℚ) (h : i ≠ j) :
    (l.set i a).getD j d = l.getD j d := by
  rcases lt_or_ge j l.length with hj | hj
  · rw [List.getD_eq_getElem _ _ (by simpa using hj),
      List.getD_eq_getElem _ _ hj, List.getElem_set_of_ne h]
  · rw [List.getD_eq_default _ _ (by simpa using hj),
      List.getD_eq_default _ _ hj]

lemma specAmpList_length (g : ℕ → ℚ) (nfft : ℕ) :
    (specAmpList g nfft).length = rfftLen nfft := by
  simp only [specAmpList]
  split_ifs <;> simp [List.length_set]

lemma specAmpList_getD_zero (g : ℕ → ℚ) (nfft : ℕ) :
    (specAmpList g nfft).getD 0 0 = g 0 / 2 := by
  have hA0 : ((List.range (rfftLen nfft)).map g).length = rfftLen nfft := by
    simp
  have hL : 0 < rfftLen nfft := Nat.succ_pos _
  simp only [specAmpList]
  split_ifs with h1 h2
  · have hgt : 1 < (((List.range (rfftLen nfft)).map g).set 0
        (((List.range (rfftLen nfft)).map g).getD 0 0 / 2)).length := h2.2
    rw [List.length_set, hA0] at hgt
    rw [getD_set_ne _ _ _ _ _ (by rw [List.length_set, hA0]; omega),
      getD_set_self _ _ _ _ (by rw [hA0]; exact hL),
      getD_range_map _ _ _ _ hL]
  · rw [getD_set_self _ _ _ _ (by rw [hA0]; exact hL),
      getD_range_map _ _ _ _ hL]
  · rw [hA0] at h1; omega
  · rw [hA0] at h1; omega

lemma specAmpList_getD_interior (g : ℕ → ℚ) (nfft k : ℕ) (h0 : 0 < k)
    (hk : k + 1 < rfftLen nfft) :
    (specAmpList g nfft).getD k 0 = g k := by
  have hA0 : ((List.range (rfftLen nfft)).map g).length = rfftLen nfft := by
    simp
  have hL : 0 < rfftLen nfft := Nat.succ_pos _
  simp only [specAmpList]
  split_ifs with h1 h2
  · rw [getD_set_ne _ _ _ _ _ (by rw [List.length_set, hA0]; omega),
      getD_set_ne _ _ _ _ _ (by omega), getD_range_map _ _ _ _ (by omega)]
  · rw [getD_set_ne _ _ _ _ _ (by omega), getD_range_map _ _ _ _ (by omega)]
  · rw [hA0] at h1; omega
  · rw [hA0] at h1; omega

lemma specAmpList_getD_last (g : ℕ → ℚ) (nfft : ℕ) (he : nfft % 2 = 0)
    (hgt : 1 < rfftLen nfft) :
    (specAmpList g nfft).getD (rfftLen nfft - 1) 0 =
      g (rfftLen nfft - 1) / 2 := by
  have hA0 : ((List.range (rfftLen nfft)).map g).length = rfftLen nfft := by
    simp
  have hL : 0 < rfftLen nfft := Nat.succ_pos _
  simp only [specAmpList]
  split_ifs with h1 h2
  · rw [List.length_set, hA0]
    rw [getD_set_self _ _ _ _ (by rw [List.length_set, hA0]; omega),
      getD_set_ne _ _ _ _ _ (by omega), getD_range_map _ _ _ _ (by omega)]
  · exact absurd ⟨he, by rw [List.length_set, hA0]; exact hgt⟩ h2
  · rw [hA0] at h1; omega
  · rw [hA0] at h1; omega

/-- C1: for a non-empty finite signal, a valid sampling rate and window,
and an optional non-negative zero-pad request, the spectrum uses
`nfft = max(N, requested)` (`N` when absent), has `nfft/2 + 1` bins, and
every interior bin equals `2/(N·cg) · |RFFT(x·w, nfft)[k]|` with
`cg = coherentGainOf w` (window mean, replaced by 1 when ≤ 0), while the
DC bin and — for even `nfft` — the Nyquist (last) bin carry half that
value, `1/(N·cg) · |RFFT(x·w, nfft)[k]|`. -/
theorem fft_spectrum_bins (env : NumEnv) (x : List ℚ) (hx : x ≠ [])
    (fs : ℤ) (hfs : 0 < fs) (name : String) (hname : name ≠ "none")
    (w : List ℚ) (hw : env.getWindow name x.length = some w)
    (zp : Option ℤ) (hzp : ∀ z, zp = some z → 0 ≤ z) :
    ∃ freqs amps meta,
      calculate_fft_spectrum env (x.map Fl.finite) fs (some name) zp =
        .ok (freqs, amps, meta) ∧
      (zp = none → meta.nfft = x.length) ∧
      (∀ z, zp = some z → (meta.nfft : ℤ) = max (x.length : ℤ) z) ∧
      amps.length = meta.nfft / 2 + 1 ∧
      (∀ k, 0 < k → k + 1 < amps.length →
        amps.getD k 0 = 2 / ((x.length : ℚ) * coherentGainOf w) *
          env.rfftAbs (x.zipWith (· * ·) w) meta.nfft k) ∧
      amps.getD 0 0 = 1 / ((x.length : ℚ) * coherentGainOf w) *
        env.rfftAbs (x.zipWith (· * ·) w) meta.nfft 0 ∧
      (meta.nfft % 2 = 0 →
        amps.getD (amps.length - 1) 0 =
          1 / ((x.length : ℚ) * coherentGainOf w) *
            env.rfftAbs (x.zipWith (· * ·) w) meta.nfft (amps.length - 1)) := by
  have hN0 : ¬x.length = 0 := by simpa [List.length_eq_zero] using hx
  unfold calculate_fft_spectrum _validate_fs
  rw [if_neg (not_le.mpr hfs)]
  simp only [ebind_ok]
  rw [sanitize_map_finite]
  simp only [ebind_ok]
  rw [if_neg hN0]
  rw [if_neg hname, hw]
  simp only [epure_eq_ok, ebind_ok]
  refine ⟨_, _, _, rfl, ?_, ?_, ?_, ?_, ?_, ?_⟩
  · intro h; subst h; rfl
  · intro z hz; subst hz
    dsimp only
    simp only [nfftOf]
    rw [Nat.cast_max, Int.toNat_of_nonneg (hzp z rfl), max_comm]
  · dsimp only
    exact specAmpList_length _ _
  · intro k h0 hk
    dsimp only at hk ⊢
    rw [specAmpList_length] at hk
    rw [specAmpList_getD_interior _ _ _ h0 hk]
  · dsimp only
    rw [specAmpList_getD_zero]
    ring
  · intro he
    dsimp only at he ⊢
    have hn1 : x.length ≤ nfftOf x.length zp := by
      cases zp <;> simp [nfftOf]
    have hgt : 1 < rfftLen (nfftOf x.length zp) := by
      simp only [rfftLen]; omega
    rw [specAmpList_length, specAmpList_getD_last _ _ he hgt]
    ring

/-- C1 witness at `x = [1,2,3,4]`, `fs = 10`, a "hann" window (which
`env0` resolves to the flat length-4 window), no zero padding. -/
theorem fft_spectrum_bins_witness :
    ([1, 2, 3, 4] : List ℚ) ≠ [] ∧ (0 : ℤ) < 10 ∧ "hann" ≠ "none" ∧
    env0.getWindow "hann" ([1, 2, 3, 4] : List ℚ).length =
      some (List.replicate 4 (1 : ℚ)) ∧
    (∃ freqs amps meta,
      calculate_fft_spectrum env0 (([1, 2, 3, 4] : List ℚ).map Fl.finite) 10
          (some "hann") none = .ok (freqs, amps, meta) ∧
      ((none : Option ℤ) = none →
        meta.nfft = ([1, 2, 3, 4] : List ℚ).length) ∧
      (∀ z : ℤ, (none : Option ℤ) = some z →
        (meta.nfft : ℤ) = max (([1, 2, 3, 4] : List ℚ).length : ℤ) z) ∧
      amps.length = meta.nfft / 2 + 1 ∧
      (∀ k, 0 < k → k + 1 < amps.length →
        amps.getD k 0 = 2 / ((([1, 2, 3, 4] : List ℚ).length : ℚ) *
            coherentGainOf (List.replicate 4 (1 : ℚ))) *
          env0.rfftAbs (([1, 2, 3, 4] : List ℚ).zipWith (· * ·)
            (List.replicate 4 (1 : ℚ))) meta.nfft k) ∧
      amps.getD 0 0 = 1 / ((([1, 2, 3, 4] : List ℚ).length : ℚ) *
          coherentGainOf (List.replicate 4 (1 : ℚ))) *
        env0.rfftAbs (([1, 2, 3, 4] : List ℚ).zipWith (· * ·)
          (List.replicate 4 (1 : ℚ))) meta.nfft 0 ∧
      (meta.nfft % 2 = 0 →
        amps.getD (amps.length - 1) 0 =
          1 / ((([1, 2, 3, 4] : List ℚ).length : ℚ) *
              coherentGainOf (List.replicate 4 (1 : ℚ))) *
            env0.rfftAbs (([1, 2, 3, 4] : List ℚ).zipWith (· * ·)
              (List.replicate 4 (1 : ℚ))) meta.nfft (amps.length - 1))) :=
  ⟨by decide, by decide, by decide, by decide,
    fft_spectrum_bins env0 [1, 2, 3, 4] (by decide) 10 (by decide) "hann"
      (by decide) (List.replicate 4 (1 : ℚ)) (by decide) none
      (fun z h => nomatch h)⟩

/-! ### C2 / C6 — dominant-frequency search -/

lemma argmaxIdx_lt_length (l : List ℚ) (h : l ≠ []) :
    argmaxIdx l < l.length := by
  induction l with
  | nil => exact absurd rfl h
  | cons a rest ih =>
    cases rest with
    | nil => simp [argmaxIdx]
    | cons b r =>
      simp only [argmaxIdx]
      split
      · have := ih (by simp)
        simpa [Nat.succ_lt_succ_iff] using this
      · simp

lemma argmaxIdx_max (l : List ℚ) :
    ∀ i, i < l.length → l.getD i 0 ≤ l.getD (argmaxIdx l) 0 := by
  induction l with
  | nil => intro i hi; simp at hi
  | cons a rest ih =>
    cases rest with
    | nil =>
      intro i hi
      have : i = 0 := by simpa using hi
      subst this
      simp [argmaxIdx]
    | cons b r =>
      intro i hi
      simp only [argmaxIdx]
      split
      · rename_i hlt
        cases i with
        | zero => simpa [List.getD_cons_zero, List.getD_cons_succ]
            using le_of_lt hlt
        | succ i' =>
          simp only [List.getD_cons_succ]
          exact ih i' (by simpa [Nat.succ_lt_succ_iff] using hi)
      · rename_i hnlt
        cases i with
        | zero => simp
        | succ i' =>
          simp only [List.getD_cons_succ, List.getD_cons_zero]
          exact le_trans (ih i' (by simpa [Nat.succ_lt_succ_iff] using hi))
            (not_lt.mp hnlt)

lemma argmaxIdx_first (l : List ℚ) :
    ∀ j, j < argmaxIdx l → l.getD j 0 < l.getD (argmaxIdx l) 0 := by
  induction l with
  | nil => intro j hj; simp [argmaxIdx] at hj
  | cons a rest ih =>
    cases rest with
    | nil => intro j hj; simp [argmaxIdx] at hj
    | cons b r =>
      simp only [argmaxIdx]
      split
      · rename_i hlt
        intro j hj
        cases j with
        | zero => simpa [List.getD_cons_zero, List.getD_cons_succ] using hlt
        | succ j' =>
          simp only [List.getD_cons_succ]
          exact ih j' (by omega)
      · intro j hj; omega

lemma pairwise_fst_zip (l m : List ℚ) (h : l.Pairwise (· ≤ ·)) :
    (l.zip m).Pairwise (fun p q => p.1 ≤ q.1) := by
  induction l generalizing m with
  | nil => simp
  | cons a l' ih =>
    cases m with
    | nil => simp
    | cons b m' =>
      rw [List.zip_cons_cons, List.pairwise_cons]
      rw [List.pairwise_cons] at h
      refine ⟨?_, ih m' h.2⟩
      intro p hp
      obtain ⟨p1, p2⟩ := p
      exact h.1 p1 (List.of_mem_zip hp).1

lemma getD_map_prod_fst (P : List (ℚ × ℚ)) (i : ℕ) (h : i < P.length) :
    (P.map Prod.fst).getD i 0 = (P.getD i (0, 0)).1 := by
  rw [List.getD_eq_getElem _ _ (by simpa using h),
    List.getD_eq_getElem _ _ h, List.getElem_map]

lemma getD_map_prod_snd (P : List (ℚ × ℚ)) (i : ℕ) (h : i < P.length) :
    (P.map Prod.snd).getD i 0 = (P.getD i (0, 0)).2 := by
  rw [List.getD_eq_getElem _ _ (by simpa using h),
    List.getD_eq_getElem _ _ h, List.getElem_map]

/-- The in-band pairs inherit the frequency ordering from a sorted
frequency axis. -/
lemma bandPairs_pairwise_fst (freqs X_amp : List ℚ) (fm fM : ℚ)
    (hs : freqs.Pairwise (· ≤ ·)) :
    (bandPairs freqs X_amp fm fM).Pairwise (fun p q => p.1 ≤ q.1) :=
  List.Pairwise.filter _ (pairwise_fst_zip freqs X_amp hs)

/-- C6 (amended: for non-empty, equal-length spectra — an empty spectrum
early-returns 0.0 before any validation): `find_dominant_frequency`
fails with `invalidSearchBand` exactly when the bounds are malformed
(non-finite, `fmin <= 0`, or `fmin >= fmax`), and never raises it for
well-formed bounds. -/
theorem dominant_search_band_errors (env : NumEnv) (freqs X_amp : List ℚ)
    (fmin fmax : Fl) (hf : freqs ≠ []) (hx : X_amp ≠ [])
    (hlen : freqs.length = X_amp.length) :
    (find_dominant_frequency env freqs X_amp fmin fmax =
      .error .invalidSearchBand) ↔ bandMalformed fmin fmax = true := by
  have hfe : ¬(freqs.length = 0 ∨ X_amp.length = 0) := by
    simpa [List.length_eq_zero] using And.intro hf hx
  unfold find_dominant_frequency
  rw [if_neg hfe, if_neg (by omega)]
  cases fmin with
  | nonfinite => simp [Fl.isFinite, bandMalformed]
  | finite a =>
    cases fmax with
    | nonfinite => simp [Fl.isFinite, bandMalformed]
    | finite b =>
      rw [if_neg (by simp [Fl.isFinite])]
      dsimp only [Fl.toQ]
      rcases le_or_lt a 0 with h1 | h1
      · rw [if_pos h1]
        simp [bandMalformed, h1]
      · rw [if_neg (not_le.mpr h1)]
        rcases le_or_lt b a with h2 | h2
        · rw [if_pos h2]
          simp [bandMalformed, ge_iff_le, h2]
        · rw [if_neg (not_le.mpr h2)]
          have e1 : ¬a ≤ 0 := not_le.mpr h1
          have e2 : ¬b ≤ a := not_le.mpr h2
          split
          · simp [bandMalformed, ge_iff_le, e1, e2]
          · simp [bandMalformed, ge_iff_le, e1, e2]

/-- C6 witness: non-empty equal-length spectra with `fmin = 0` (not
strictly positive), so the error is raised. -/
theorem dominant_search_band_errors_witness :
    ([1, 2] : List ℚ) ≠ [] ∧ ([3, 4] : List ℚ) ≠ [] ∧
    (find_dominant_frequency env0 [1, 2] [3, 4] (.finite 0) (.finite 1) =
      .error .invalidSearchBand ↔
        bandMalformed (.finite 0) (.finite 1) = true) :=
  ⟨by decide, by decide,
    dominant_search_band_errors env0 [1, 2] [3, 4] (.finite 0) (.finite 1)
      (by decide) (by decide) (by decide)⟩

/-- C6 counterexample to the claim as stated: on an empty spectrum with
malformed bounds (`fmin = -1 ≤ 0`) the function does not raise
`invalidSearchBand` — it returns 0.0 with the `empty_spectrum` note,
because the empty-input early return precedes the bound validation. -/
theorem dominant_search_band_errors_ce :
    find_dominant_frequency env0 [] [] (.finite (-1)) (.finite 1) =
      .ok (0, { note := some "empty_spectrum" }) ∧
    bandMalformed (.finite (-1)) (.finite 1) = true := by
  constructor
  · decide
  · decide

/-- C2 (amended: the frequency axis must be in ascending order, as the
spectral estimator produces it — ties are broken by first occurrence in
ARRAY order, which coincides with ascending-frequency order only for a
sorted axis): with valid bounds and at least one in-band bin, the result
is the frequency of an in-band bin of maximal amplitude, every earlier
in-band bin has strictly smaller amplitude, and among equal-amplitude
maxima the returned frequency is the smallest. -/
theorem dominant_frequency_peak (env : NumEnv) (freqs X_amp : List ℚ)
    (fm fM : ℚ) (hlen : freqs.length = X_amp.length) (hfm : 0 < fm)
    (hfM : fm < fM) (hsorted : freqs.Pairwise (· ≤ ·))
    (hband : bandPairs freqs X_amp fm fM ≠ []) :
    ∃ f q,
      find_dominant_frequency env freqs X_amp (.finite fm) (.finite fM) =
        .ok (f, q) ∧
      ∃ i, i < (bandPairs freqs X_amp fm fM).length ∧
        f = ((bandPairs freqs X_amp fm fM).getD i (0, 0)).1 ∧
        (∀ j, j < (bandPairs freqs X_amp fm fM).length →
          ((bandPairs freqs X_amp fm fM).getD j (0, 0)).2 ≤
            ((bandPairs freqs X_amp fm fM).getD i (0, 0)).2) ∧
        (∀ j, j < i →
          ((bandPairs freqs X_amp fm fM).getD j (0, 0)).2 <
            ((bandPairs freqs X_amp fm fM).getD i (0, 0)).2) ∧
        (∀ j, j < (bandPairs freqs X_amp fm fM).length →
          ((bandPairs freqs X_amp fm fM).getD j (0, 0)).2 =
            ((bandPairs freqs X_amp fm fM).getD i (0, 0)).2 →
          ((bandPairs freqs X_amp fm fM).getD i (0, 0)).1 ≤
            ((bandPairs freqs X_amp fm fM).getD j (0, 0)).1) := by
  have hf : freqs ≠ [] := by
    intro h; subst h; simp [bandPairs] at hband
  have hx : X_amp ≠ [] := by
    intro h; subst h; simp [bandPairs] at hband
  have hfe : ¬(freqs.length = 0 ∨ X_amp.length = 0) := by
    simpa [List.length_eq_zero] using And.intro hf hx
  unfold find_dominant_frequency
  rw [if_neg hfe, if_neg (by omega), if_neg (by simp [Fl.isFinite])]
  dsimp only [Fl.toQ]
  rw [if_neg (not_le.mpr hfm), if_neg (not_le.mpr hfM),
    if_neg (by simpa [List.length_eq_zero] using hband)]
  refine ⟨_, _, rfl, ?_⟩
  have hxb : (bandPairs freqs X_amp fm fM).map Prod.snd ≠ [] := by
    simpa using hband
  have hilen : argmaxIdx ((bandPairs freqs X_amp fm fM).map Prod.snd) <
      (bandPairs freqs X_amp fm fM).length := by
    have := argmaxIdx_lt_length _ hxb
    simpa using this
  refine ⟨argmaxIdx ((bandPairs freqs X_amp fm fM).map Prod.snd), hilen,
    getD_map_prod_fst _ _ hilen, ?_, ?_, ?_⟩
  · intro j hj
    have := argmaxIdx_max ((bandPairs freqs X_amp fm fM).map Prod.snd) j
      (by simpa using hj)
    rwa [getD_map_prod_snd _ j hj, getD_map_prod_snd _ _ hilen] at this
  · intro j hj
    have := argmaxIdx_first ((bandPairs freqs X_amp fm fM).map Prod.snd) j hj
    rwa [getD_map_prod_snd _ j (lt_trans hj hilen),
      getD_map_prod_snd _ _ hilen] at this
  · intro j hj heq
    rcases lt_trichotomy j
      (argmaxIdx ((bandPairs freqs X_amp fm fM).map Prod.snd)) with h | h | h
    · have := argmaxIdx_first ((bandPairs freqs X_amp fm fM).map Prod.snd) j h
      rw [getD_map_prod_snd _ j (lt_trans h hilen),
        getD_map_prod_snd _ _ hilen] at this
      exact absurd heq (ne_of_lt this)
    · rw [h]
    · have hpw := bandPairs_pairwise_fst freqs X_amp fm fM hsorted
      have hij := List.pairwise_iff_getElem.mp hpw _ j hilen hj h
      rw [List.getD_eq_getElem _ _ hilen, List.getD_eq_getElem _ _ hj]
      exact hij

/-- C2 witness at `freqs = [1, 2, 3]` (ascending), `amps = [1, 5, 2]`,
band `[1, 4]`. -/
theorem dominant_frequency_peak_witness :
    ([1, 2, 3] : List ℚ).length = ([1, 5, 2] : List ℚ).length ∧
    (0 : ℚ) < 1 ∧ (1 : ℚ) < 4 ∧
    bandPairs [1, 2, 3] [1, 5, 2] 1 4 ≠ [] ∧
    (∃ f q,
      find_dominant_frequency env0 [1, 2, 3] [1, 5, 2]
          (.finite 1) (.finite 4) = .ok (f, q) ∧
      ∃ i, i < (bandPairs [1, 2, 3] [1, 5, 2] 1 4).length ∧
        f = ((bandPairs [1, 2, 3] [1, 5, 2] 1 4).getD i (0, 0)).1 ∧
        (∀ j, j < (bandPairs [1, 2, 3] [1, 5, 2] 1 4).length →
          ((bandPairs [1, 2, 3] [1, 5, 2] 1 4).getD j (0, 0)).2 ≤
            ((bandPairs [1, 2, 3] [1, 5, 2] 1 4).getD i (0, 0)).2) ∧
        (∀ j, j < i →
          ((bandPairs [1, 2, 3] [1, 5, 2] 1 4).getD j (0, 0)).2 <
            ((bandPairs [1, 2, 3] [1, 5, 2] 1 4).getD i (0, 0)).2) ∧
        (∀ j, j < (bandPairs [1, 2, 3] [1, 5, 2] 1 4).length →
          ((bandPairs [1, 2, 3] [1, 5, 2] 1 4).getD j (0, 0)).2 =
            ((bandPairs [1, 2, 3] [1, 5, 2] 1 4).getD i (0, 0)).2 →
          ((bandPairs [1, 2, 3] [1, 5, 2] 1 4).getD i (0, 0)).1 ≤
            ((bandPairs [1, 2, 3] [1, 5, 2] 1 4).getD j (0, 0)).1)) :=
  ⟨by decide, by decide, by decide, by decide,
    dominant_frequency_peak env0 [1, 2, 3] [1, 5, 2] 1 4 (by decide)
      (by decide) (by decide) (by norm_num [List.pairwise_cons])
      (by decide)⟩

unseal Rat.add Rat.mul Rat.inv Rat.sub Rat.ofScientific in
/-- C2 counterexample to the claim as stated: with the unsorted frequency
axis `[2, 1]` and tied in-band amplitudes `[5, 5]`, the bin occurring
first in ascending-frequency order has frequency 1, but the function
returns 2 — `np.argmax` breaks ties by first occurrence in ARRAY order. -/
theorem dominant_frequency_peak_ce :
    Except.map Prod.fst (find_dominant_frequency env0 [2, 1] [5, 5]
      (.finite (1/2)) (.finite 3)) = .ok 2 ∧ (2 : ℚ) ≠ 1 := by
  constructor
  · decide
  · decide

/-! ### C8 / C9 / C10 — orchestrator results -/

lemma exists_ok_of_bind_ok {α β : Type} {m : Except SigError α}
    {f : α → Except SigError β} {b : β} (h : (m >>= f) = .ok b) :
    ∃ a, m = .ok a ∧ f a = .ok b := by
  cases m with
  | error e => simp at h
  | ok a => exact ⟨a, rfl, h⟩

/-- The abnormality flag of a successful analysis is exactly
`abnormalFlag` of the result's own time-domain metrics and the supplied
limits (step 5 of `analyze_displacement_series`). -/
lemma analyze_isAbnormal_spec (env : NumEnv) (ds : DisplacementSeries)
    (low_cut high_cut : Option Fl) (Lpp Lrms : Option ℚ)
    (window : Option String) (zp : Option ℤ) (fsm fsM : Option Fl)
    (tol : ℚ) (r : AnalysisResult)
    (h : analyze_displacement_series env ds low_cut high_cut Lpp Lrms
      window zp fsm fsM tol = .ok r) :
    r.is_abnormal = abnormalFlag r.A_pp_mm r.A_rms_mm Lpp Lrms := by
  unfold analyze_displacement_series at h
  obtain ⟨a1, -, h⟩ := exists_ok_of_bind_ok h
  obtain ⟨xRaw, -, h⟩ := exists_ok_of_bind_ok h
  dsimp only at h
  obtain ⟨trip, -, h⟩ := exists_ok_of_bind_ok h
  obtain ⟨t, x, rm⟩ := trip
  dsimp only at h
  obtain ⟨fp, -, h⟩ := exists_ok_of_bind_ok h
  obtain ⟨xFilt, fMeta⟩ := fp
  dsimp only at h
  rcases hca : calculate_time_domain_amp env xFilt with ⟨app, arms⟩
  rw [hca] at h
  dsimp only at h
  obtain ⟨sp, -, h⟩ := exists_ok_of_bind_ok h
  obtain ⟨freqs, xAmp, sMeta⟩ := sp
  dsimp only at h
  obtain ⟨cb, -, h⟩ := exists_ok_of_bind_ok h
  obtain ⟨bl, bh, bm⟩ := cb
  dsimp only at h
  obtain ⟨dq, -, h⟩ := exists_ok_of_bind_ok h
  obtain ⟨fDom, quality⟩ := dq
  dsimp only at h
  rw [epure_eq_ok] at h
  have hr := (Except.ok.inj h).symm
  subst hr
  rfl

/-- C9: a successful analysis is abnormal exactly when a supplied
peak-to-peak limit is strictly exceeded or a supplied RMS limit is
strictly exceeded; with no limits supplied the result is never
abnormal. -/
theorem abnormal_flag_spec (env : NumEnv) (ds : DisplacementSeries)
    (low_cut high_cut : Option Fl) (Lpp Lrms : Option ℚ)
    (window : Option String) (zp : Option ℤ) (fsm fsM : Option Fl)
    (tol : ℚ) (r : AnalysisResult)
    (h : analyze_displacement_series env ds low_cut high_cut Lpp Lrms
      window zp fsm fsM tol = .ok r) :
    r.is_abnormal = true ↔
      (∃ L, Lpp = some L ∧ r.A_pp_mm > L) ∨
      (∃ L, Lrms = some L ∧ r.A_rms_mm > L) := by
  rw [analyze_isAbnormal_spec env ds low_cut high_cut Lpp Lrms window zp
    fsm fsM tol r h]
  cases Lpp <;> cases Lrms <;> simp [abnormalFlag]

/-- C10: reaching a supplied threshold exactly (or staying below it)
never flags abnormality — the comparison is strict. -/
theorem abnormal_threshold_strict (env : NumEnv) (ds : DisplacementSeries)
    (low_cut high_cut : Option Fl) (Lpp Lrms : Option ℚ)
    (window : Option String) (zp : Option ℤ) (fsm fsM : Option Fl)
    (tol : ℚ) (r : AnalysisResult)
    (h : analyze_displacement_series env ds low_cut high_cut Lpp Lrms
      window zp fsm fsM tol = .ok r)
    (hpp : ∀ L, Lpp = some L → r.A_pp_mm ≤ L)
    (hrms : ∀ L, Lrms = some L → r.A_rms_mm ≤ L) :
    r.is_abnormal = false := by
  rw [analyze_isAbnormal_spec env ds low_cut high_cut Lpp Lrms window zp
    fsm fsM tol r h]
  cases hp : Lpp with
  | none =>
    cases hq : Lrms with
    | none => simp [abnormalFlag]
    | some L2 => simp [abnormalFlag, not_lt.mpr (hrms _ hq)]
  | some L1 =>
    cases hq : Lrms with
    | none => simp [abnormalFlag, not_lt.mpr (hpp _ hp)]
    | some L2 =>
      simp [abnormalFlag, not_lt.mpr (hpp _ hp), not_lt.mpr (hrms _ hq)]

unseal Rat.add Rat.mul Rat.inv Rat.sub Rat.ofScientific in
/-- C9 witness: the empty series at `fs = 10`, band `(1, 4)`, with a
peak-to-peak limit of 1 and no RMS limit. -/
theorem abnormal_flag_spec_witness :
    ∃ r, analyze_displacement_series env0 ⟨[], [], 10, "f"⟩
        (some (.finite 1)) (some (.finite 4)) (some 1) none (some "hann")
        none none none 1 = .ok r ∧
      (r.is_abnormal = true ↔
        (∃ L, (some (1 : ℚ)) = some L ∧ r.A_pp_mm > L) ∨
        (∃ L, (none : Option ℚ) = some L ∧ r.A_rms_mm > L)) := by
  cases hE : analyze_displacement_series env0 ⟨[], [], 10, "f"⟩
      (some (.finite 1)) (some (.finite 4)) (some 1) none (some "hann")
      none none none 1 with
  | error e =>
    have hT : (analyze_displacement_series env0 ⟨[], [], 10, "f"⟩
        (some (.finite 1)) (some (.finite 4)) (some 1) none (some "hann")
        none none none 1).toOption.isSome = true := by decide
    rw [hE] at hT
    simp [Except.toOption] at hT
  | ok r =>
    exact ⟨r, rfl, abnormal_flag_spec env0 ⟨[], [], 10, "f"⟩
      (some (.finite 1)) (some (.finite 4)) (some 1) none (some "hann")
      none none none 1 r hE⟩

unseal Rat.add Rat.mul Rat.inv Rat.sub Rat.ofScientific in
/-- C10 witness: the empty series measured at exactly its limits
(`A_pp = 0 = limit`, `A_rms = 0 = limit`) is not abnormal. -/
theorem abnormal_threshold_strict_witness :
    ∃ r, analyze_displacement_series env0 ⟨[], [], 10, "f"⟩
        (some (.finite 1)) (some (.finite 4)) (some 0) (some 0)
        (some "hann") none none none 1 = .ok r ∧
      r.A_pp_mm = 0 ∧ r.A_rms_mm = 0 ∧ r.is_abnormal = false := by
  have hE : analyze_displacement_series env0 ⟨[], [], 10, "f"⟩
      (some (.finite 1)) (some (.finite 4)) (some 0) (some 0)
      (some "hann") none none none 1 =
      .ok ⟨0, 0, 0, [], [], false, "f", { note := some "empty_spectrum" },
        { resample := ⟨false, none, none, none, 10⟩,
          filter := { note := some "empty_signal" },
          spec := { note := some "empty_signal" },
          nRaw := 0, nUsed := 0 }⟩ := by decide
  refine ⟨_, hE, rfl, rfl,
    abnormal_threshold_strict env0 ⟨[], [], 10, "f"⟩ (some (.finite 1))
      (some (.finite 4)) (some 0) (some 0) (some "hann") none none none 1 _
      hE ?_ ?_⟩
  · intro L hL; injection hL with h; subst h; decide
  · intro L hL; injection hL with h; subst h; decide

/-- C8: analysing an empty displacement series with a valid sampling rate
and a band that survives the clamp succeeds, with zero peak-to-peak, RMS
and dominant frequency, empty spectra, and the degenerate cases noted in
quality/metadata (`empty_spectrum`, `empty_signal`, no resampling). -/
theorem analyze_empty_series (env : NumEnv) (fs : ℤ) (hfs : 0 < fs)
    (fan : String) (low_cut high_cut : Option Fl) (Lpp Lrms : Option ℚ)
    (window : Option String) (zp : Option ℤ) (fsm fsM : Option Fl)
    (tol : ℚ) (bl bh : ℚ) (bm : BandMeta)
    (hclamp : _clamp_band low_cut high_cut fs = .ok (bl, bh, bm)) :
    ∃ r, analyze_displacement_series env ⟨[], [], fs, fan⟩ low_cut high_cut
        Lpp Lrms window zp fsm fsM tol = .ok r ∧
      r.A_pp_mm = 0 ∧ r.A_rms_mm = 0 ∧ r.f_dominant_hz = 0 ∧
      r.f_spectrum = [] ∧ r.X_spectrum = [] ∧
      r.quality.note = some "empty_spectrum" ∧
      r.preprocess_meta.filter.note = some "empty_signal" ∧
      r.preprocess_meta.spec.note = some "empty_signal" ∧
      r.preprocess_meta.resample.resampled = false := by
  refine ⟨⟨0, 0, 0, [], [], abnormalFlag 0 0 Lpp Lrms, fan,
    { note := some "empty_spectrum" },
    { resample := ⟨false, none, none, none, fs⟩,
      filter := { note := some "empty_signal" },
      spec := { note := some "empty_signal" },
      nRaw := 0, nUsed := 0 }⟩,
    ?_, rfl, rfl, rfl, rfl, rfl, rfl, rfl, rfl, rfl⟩
  have hval : _validate_fs fs = .ok fs := by
    unfold _validate_fs; rw [if_neg (not_le.mpr hfs)]
  simp only [analyze_displacement_series, _check_and_resample_if_needed,
    filter_signal, calculate_fft_spectrum, find_dominant_frequency,
    calculate_time_domain_amp, _sanitize_signal, _validate_fs,
    hval, hclamp, ebind_ok, ebind_err, epure_eq_ok, ethrow_eq_err,
    if_neg (not_le.mpr hfs), List.map_nil, List.length_nil]
  simp

unseal Rat.add Rat.mul Rat.inv Rat.sub Rat.ofScientific in
/-- C8 witness: empty series, `fs = 10`, band `(1, 4)` (which clamps to
itself below Nyquist-times-margin `4.75`). -/
theorem analyze_empty_series_witness :
    (0 : ℤ) < 10 ∧
    _clamp_band (some (.finite 1)) (some (.finite 4)) 10 =
      .ok (1, 4, ⟨(1, 4), some (1, 4), 5⟩) ∧
    (∃ r, analyze_displacement_series env0 ⟨[], [], 10, "fan"⟩
        (some (.finite 1)) (some (.finite 4)) none none (some "hann") none
        none none (2/100) = .ok r ∧
      r.A_pp_mm = 0 ∧ r.A_rms_mm = 0 ∧ r.f_dominant_hz = 0 ∧
      r.f_spectrum = [] ∧ r.X_spectrum = [] ∧
      r.quality.note = some "empty_spectrum" ∧
      r.preprocess_meta.filter.note = some "empty_signal" ∧
      r.preprocess_meta.spec.note = some "empty_signal" ∧
      r.preprocess_meta.resample.resampled = false) :=
  ⟨by decide, by decide,
    analyze_empty_series env0 10 (by decide) "fan" (some (.finite 1))
      (some (.finite 4)) none none (some "hann") none none none (2/100)
      1 4 ⟨(1, 4), some (1, 4), 5⟩ (by decide)⟩
